import Mathlib

/-!
# Verification of the ignite-rust-client core

A shallow embedding of the client library under verification, translated from
its Rust sources:

* `src/binary/mod.rs` — the typed binary codec (`Value`, `IgniteWrite`,
  `IgniteRead`);
* `src/cache.rs` — the cache handle (`Cache::id`, `Cache::execute`);
* `src/network.rs` — the dispatcher (`Tcp::execute`);
* `src/error.rs` — the error taxonomy.

Modelling conventions:

* Wire bytes are natural numbers below 256; buffers (`bytes::Bytes` /
  `BytesMut`) are `List Nat`, with the cursor of an immutable buffer
  represented by returning the unread suffix.
* Machine integers are `Int` / `Nat` with explicit two's-complement
  truncation (`toSigned` / `toUnsigned`).
* Fallible Rust code (`Result`) returns `Outcome`, which also has a
  `panic` constructor for aborts: `assert_eq!` failures, `unimplemented!`,
  and the `bytes` crate getters and slices that abort when the buffer is
  too short.  Panic message texts are our own constants standing in for
  the library texts; error kinds and error message texts follow the source.
* Rust `char` is its Unicode scalar value (`Nat`); Rust `String` is the
  list of its Unicode scalar values, with UTF-8 conversion made explicit.
* `f32`/`f64` are carried as their IEEE-754 bit patterns (`Nat`); the codec
  only moves the bit patterns, so this is exact.
-/

namespace IgniteRust

/-- A byte buffer (entries are bytes, i.e. naturals below 256). -/
abbrev Buf := List Nat

/-- Interpret `x` (expected below `2 ^ w`) as a `w`-bit two's-complement
signed integer. -/
def toSigned (w : Nat) (x : Nat) : Int :=
  if x < 2 ^ (w - 1) then (x : Int) else (x : Int) - ((2 ^ w : Nat) : Int)

/-- The low `w` bits of an integer: the unsigned representative of `x`
modulo `2 ^ w` (Rust's `as uN` cast, and the payload fed to the
little-endian encoders). -/
def toUnsigned (w : Nat) (x : Int) : Nat :=
  (x % ((2 ^ w : Nat) : Int)).toNat

/-- Rust's `as iN` cast: wrap an integer into `w`-bit two's complement. -/
def wrapSigned (w : Nat) (x : Int) : Int := toSigned w (toUnsigned w x)

/-- The `w` little-endian bytes of a natural number (low byte first). -/
def natLe : Nat → Nat → Buf
  | 0, _ => []
  | w + 1, x => x % 256 :: natLe w (x / 256)

/-- Little-endian value of a byte list. -/
def leVal : Buf → Nat
  | [] => 0
  | b :: bs => b + 256 * leVal bs

/-- Big-endian value of a byte list. -/
def beVal (bs : Buf) : Nat := bs.foldl (fun acc b => acc * 256 + b) 0

/-- `BytesMut::put_i16_le`. -/
def i16le (x : Int) : Buf := natLe 2 (toUnsigned 16 x)

/-- `BytesMut::put_i32_le`. -/
def i32le (x : Int) : Buf := natLe 4 (toUnsigned 32 x)

/-- `BytesMut::put_i64_le`. -/
def i64le (x : Int) : Buf := natLe 8 (toUnsigned 64 x)

/-- `BytesMut::put_u16` (big-endian, used only by the char encoder). -/
def u16be (x : Nat) : Buf := [x / 256 % 256, x % 256]

/-- Split off exactly `n` leading bytes, or fail. -/
def takeExact : Nat → Buf → Option (Buf × Buf)
  | 0, bs => some ([], bs)
  | _ + 1, [] => none
  | n + 1, b :: bs =>
    match takeExact n bs with
    | some (xs, rest) => some (b :: xs, rest)
    | none => none

/-- The Unicode scalar values of a Lean string literal (our model of a Rust
`String` constant). -/
def str (s : String) : List Nat := s.data.map Char.toNat

/-- The scalar values of the decimal rendering of an integer (Rust
`format!` of an integer argument). -/
def fmtInt (x : Int) : List Nat := str (toString x)

/-- `Version` (`src/lib.rs`). -/
structure Version where
  major : Int
  minor : Int
  patch : Int
deriving DecidableEq, Repr

/-- `ErrorKind` (`src/error.rs`), plus the `Serde` kind that the codec and
cache modules construct (the crate is mid-rename between `Encoding` and
`Serde`; both spellings occur in the source). -/
inductive ErrorKind where
  | network
  | encoding
  | handshake (serverVersion clientVersion : Version)
  | ignite (code : Int)
  | serde
deriving DecidableEq, Repr

/-- `Error` (`src/error.rs`): a kind plus a message string. -/
structure Error where
  kind : ErrorKind
  message : List Nat
deriving DecidableEq, Repr

/-- Result of running a piece of Rust code: a value, an `Err`, or a panic. -/
inductive Outcome (α : Type) where
  | ok (a : α)
  | err (e : Error)
  | panic (msg : String)
deriving Repr

/-- Is the outcome an `Err` value (as opposed to success or a panic)? -/
def Outcome.isErr {α : Type} : Outcome α → Bool
  | .err _ => true
  | _ => false

/-- Sequencing in `Outcome` (Rust's `?` operator; panics propagate). -/
def obind {α β : Type} : Outcome α → (α → Outcome β) → Outcome β
  | .ok a, f => f a
  | .err e, _ => .err e
  | .panic m, _ => .panic m

/-- Mapping over `Outcome`. -/
def omap {α β : Type} (f : α → β) : Outcome α → Outcome β
  | .ok a => .ok (f a)
  | .err e => .err e
  | .panic m => .panic m

/-- A reader consumes a prefix of the buffer and returns the value read
together with the unread suffix. -/
abbrev Reader (α : Type) := Buf → Outcome (α × Buf)

/-- Read `n` raw bytes; the `bytes` crate panics when fewer remain. -/
def getBytes (n : Nat) (bs : Buf) : Outcome (Buf × Buf) :=
  match takeExact n bs with
  | some (xs, rest) => .ok (xs, rest)
  | none => .panic ("advance out of bounds")

/-- `Buf::get_u8`. -/
def get_u8 : Reader Nat := fun bs =>
  omap (fun p => (leVal p.1, p.2)) (getBytes 1 bs)

/-- `Buf::get_i8`. -/
def get_i8 : Reader Int := fun bs =>
  omap (fun p => (toSigned 8 (leVal p.1), p.2)) (getBytes 1 bs)

/-- `Buf::get_u16_le`. -/
def get_u16_le : Reader Nat := fun bs =>
  omap (fun p => (leVal p.1, p.2)) (getBytes 2 bs)

/-- `Buf::get_i16_le`. -/
def get_i16_le : Reader Int := fun bs =>
  omap (fun p => (toSigned 16 (leVal p.1), p.2)) (getBytes 2 bs)

/-- `Buf::get_i32_le`. -/
def get_i32_le : Reader Int := fun bs =>
  omap (fun p => (toSigned 32 (leVal p.1), p.2)) (getBytes 4 bs)

/-- `Buf::get_i64_le`. -/
def get_i64_le : Reader Int := fun bs =>
  omap (fun p => (toSigned 64 (leVal p.1), p.2)) (getBytes 8 bs)

/-- `Buf::get_f32_le`, as the raw bit pattern. -/
def get_f32_le : Reader Nat := fun bs =>
  omap (fun p => (leVal p.1, p.2)) (getBytes 4 bs)

/-- `Buf::get_f64_le`, as the raw bit pattern. -/
def get_f64_le : Reader Nat := fun bs =>
  omap (fun p => (leVal p.1, p.2)) (getBytes 8 bs)

/-! ## UTF-8

Rust `String::as_bytes` / `String::from_utf8`.  Encoding maps each scalar
to 1–4 bytes; decoding is strict (rejects overlong forms, surrogates and
out-of-range values), as `from_utf8` is. -/

/-- UTF-8 encoding of one Unicode scalar value. -/
def utf8Char (c : Nat) : Buf :=
  if c < 0x80 then [c]
  else if c < 0x800 then [0xC0 + c / 64, 0x80 + c % 64]
  else if c < 0x10000 then [0xE0 + c / 4096, 0x80 + c / 64 % 64, 0x80 + c % 64]
  else [0xF0 + c / 262144, 0x80 + c / 4096 % 64, 0x80 + c / 64 % 64, 0x80 + c % 64]

/-- UTF-8 encoding of a string (list of scalar values). -/
def utf8Encode (s : List Nat) : Buf := (s.map utf8Char).flatten

/-- Is `b` a UTF-8 continuation byte? -/
def isCont (b : Nat) : Bool := 0x80 ≤ b && b < 0xC0

/-- Strict UTF-8 decoding of a whole byte list (Rust `String::from_utf8`):
`none` exactly when the bytes are not valid UTF-8. -/
def utf8Decode : Buf → Option (List Nat)
  | [] => some []
  | b :: bs =>
    if b < 0x80 then
      (utf8Decode bs).map (fun s => b :: s)
    else
      match bs with
      | [] => none
      | b1 :: bs1 =>
        if b < 0xC2 then none
        else if b ≤ 0xDF then
          if isCont b1 then
            (utf8Decode bs1).map (fun s => ((b - 0xC0) * 64 + (b1 - 0x80)) :: s)
          else none
        else
          match bs1 with
          | [] => none
          | b2 :: bs2 =>
            if b ≤ 0xEF then
              let v := (b - 0xE0) * 4096 + (b1 - 0x80) * 64 + (b2 - 0x80)
              if isCont b1 && isCont b2 && decide (0x800 ≤ v) &&
                  !(decide (0xD800 ≤ v) && decide (v ≤ 0xDFFF)) then
                (utf8Decode bs2).map (fun s => v :: s)
              else none
            else
              match bs2 with
              | [] => none
              | b3 :: bs3 =>
                if b ≤ 0xF4 then
                  let v := (b - 0xF0) * 262144 + (b1 - 0x80) * 4096 +
                    (b2 - 0x80) * 64 + (b3 - 0x80)
                  if isCont b1 && isCont b2 && isCont b3 &&
                      decide (0x10000 ≤ v) && decide (v ≤ 0x10FFFF) then
                    (utf8Decode bs3).map (fun s => v :: s)
                  else none
                else none

/-! ## The `Value` sum type (`src/binary/mod.rs`, lines 158–189)

Rust `char` is carried as its Unicode scalar value, `String` as the list of
its scalar values, `Uuid` as its 16 raw bytes, `NaiveDateTime` as
`(seconds since epoch, nanosecond of second)`, floats as IEEE-754 bit
patterns.  `HashSet`/`LinkedHashSet`/`HashMap`/`LinkedHashMap` carry their
elements in insertion order; this is exact because inserting a `Value`
into any of them panics (`Value`'s `Hash`/`PartialEq` are
`unimplemented!()`), so a populated set or map can only be built directly
by a caller, and the encoder just iterates it. -/

inductive Value where
  | i8 (v : Int)
  | i16 (v : Int)
  | i32 (v : Int)
  | i64 (v : Int)
  | f32 (bits : Nat)
  | f64 (bits : Nat)
  | char (v : Nat)
  | bool (v : Bool)
  | string (s : List Nat)
  | uuid (raw : List Nat)
  | timestamp (secs : Int) (nanos : Nat)
  | i8Vec (v : List Int)
  | i16Vec (v : List Int)
  | i32Vec (v : List Int)
  | i64Vec (v : List Int)
  | f32Vec (v : List Nat)
  | f64Vec (v : List Nat)
  | charVec (v : List Nat)
  | boolVec (v : List Bool)
  | stringVec (v : List (List Nat))
  | uuidVec (v : List (List Nat))
  | timestampVec (v : List (Int × Nat))
  | vec (v : List Value)
  | linkedList (v : List Value)
  | hashSet (v : List Value)
  | linkedHashSet (v : List Value)
  | hashMap (v : List (Value × Value))
  | linkedHashMap (v : List (Value × Value))
  | binaryObject (flags : Int) (typeId : Int) (hashCode : Int) (body : Buf)

/-! ## Scalar encoders (`impl IgniteWrite for ...`)

Each writer takes the buffer assembled so far and returns the extended
buffer together with `none`, or the buffer as mutated up to the failure
point together with `some` error — `BytesMut` keeps whatever was appended
before an encoder returns `Err`. -/

/-- A writer appends to the mutable buffer and may fail. -/
abbrev Writer (α : Type) := α → Buf → Buf × Option Error

/-- `impl IgniteWrite for i8`. -/
def i8Write : Writer Int := fun v buf => (buf ++ [toUnsigned 8 v], none)

/-- `impl IgniteWrite for i16`. -/
def i16Write : Writer Int := fun v buf => (buf ++ i16le v, none)

/-- `impl IgniteWrite for i32`. -/
def i32Write : Writer Int := fun v buf => (buf ++ i32le v, none)

/-- `impl IgniteWrite for i64`. -/
def i64Write : Writer Int := fun v buf => (buf ++ i64le v, none)

/-- `impl IgniteWrite for f32` (little-endian bit pattern). -/
def f32Write : Writer Nat := fun bits buf => (buf ++ natLe 4 bits, none)

/-- `impl IgniteWrite for f64` (little-endian bit pattern). -/
def f64Write : Writer Nat := fun bits buf => (buf ++ natLe 8 bits, none)

/-- `char::len_utf16` of a Unicode scalar value. -/
def lenUtf16 (c : Nat) : Nat := if c < 0x10000 then 1 else 2

/-- `impl IgniteWrite for char` (lines 468–479): one 16-bit big-endian code
unit via `put_u16`; scalars needing a surrogate pair are rejected. -/
def charWrite : Writer Nat := fun c buf =>
  if lenUtf16 c = 1 then (buf ++ u16be (c % 65536), none)
  else (buf, some ⟨.serde, str ("Only UTF-16 characters are supported.")⟩)

/-- `impl IgniteWrite for bool`. -/
def boolWrite : Writer Bool := fun v buf =>
  (buf ++ [if v then 1 else 0], none)

/-- `impl IgniteWrite for String`: type code 9, byte length, UTF-8 bytes. -/
def stringWrite : Writer (List Nat) := fun s buf =>
  (buf ++ 9 :: i32le ((utf8Encode s).length : Int) ++ utf8Encode s, none)

/-- `impl IgniteWrite for Uuid`: type code 10, then the big-endian words
formed from raw bytes 0–7 (`msb`) and 8–15 (`lsb`), each written
little-endian. -/
def uuidWrite : Writer (List Nat) := fun raw buf =>
  (buf ++ 10 :: natLe 8 (beVal (raw.take 8)) ++ natLe 8 (beVal (raw.drop 8)), none)

/-- `impl IgniteWrite for NaiveDateTime`: type code 33, milliseconds since
epoch (`timestamp_millis`), nanosecond of second. -/
def timestampWrite : Writer (Int × Nat) := fun t buf =>
  (buf ++ 33 :: i64le (t.1 * 1000 + (t.2 / 1000000 : Nat)) ++ i32le (t.2 : Int), none)

/-- `impl<T> IgniteWrite for Option<T>`: `None` is the single null-sentinel
byte 101 (0x65); `Some` delegates to the typed encoder. -/
def optionWrite {α : Type} (wr : Writer α) : Writer (Option α) := fun v buf =>
  match v with
  | some x => wr x buf
  | none => (buf ++ [101], none)

/-- The item loop shared by the sequence encoders: write each element,
stopping at (and keeping the partial buffer of) the first failure. -/
def writeItems {α : Type} (wr : Writer α) : List α → Buf → Buf × Option Error
  | [], buf => (buf, none)
  | x :: xs, buf =>
    match wr x buf with
    | (b, none) => writeItems wr xs b
    | (b, some e) => (b, some e)

/-- `impl<T> IgniteWrite for Vec<T>`: 32-bit length, then the raw element
encodings. -/
def vecWrite {α : Type} (wr : Writer α) : Writer (List α) := fun xs buf =>
  writeItems wr xs (buf ++ i32le (xs.length : Int))

/-! ## `impl IgniteWrite for Value` (lines 268–418)

Every variant writes its one-byte type code first (`String`, `Uuid` and
`NaiveDateTime` write theirs inside their own encoder); the
`write_collection!`/`write_map!` macros write type code, 32-bit length and
the sub-kind byte before the elements. -/

mutual

def Value.write : Value → Buf → Buf × Option Error
  | .i8 v, buf => i8Write v (buf ++ [1])
  | .i16 v, buf => i16Write v (buf ++ [2])
  | .i32 v, buf => i32Write v (buf ++ [3])
  | .i64 v, buf => i64Write v (buf ++ [4])
  | .f32 bits, buf => f32Write bits (buf ++ [5])
  | .f64 bits, buf => f64Write bits (buf ++ [6])
  | .char c, buf => charWrite c (buf ++ [7])
  | .bool v, buf => boolWrite v (buf ++ [8])
  | .string s, buf => stringWrite s buf
  | .uuid raw, buf => uuidWrite raw buf
  | .timestamp s n, buf => timestampWrite (s, n) buf
  | .i8Vec v, buf => vecWrite i8Write v (buf ++ [12])
  | .i16Vec v, buf => vecWrite i16Write v (buf ++ [13])
  | .i32Vec v, buf => vecWrite i32Write v (buf ++ [14])
  | .i64Vec v, buf => vecWrite i64Write v (buf ++ [15])
  | .f32Vec v, buf => vecWrite f32Write v (buf ++ [16])
  | .f64Vec v, buf => vecWrite f64Write v (buf ++ [17])
  | .charVec v, buf => vecWrite charWrite v (buf ++ [18])
  | .boolVec v, buf => vecWrite boolWrite v (buf ++ [19])
  | .stringVec v, buf => vecWrite stringWrite v (buf ++ [20])
  | .uuidVec v, buf => vecWrite uuidWrite v (buf ++ [21])
  | .timestampVec v, buf => vecWrite timestampWrite v (buf ++ [34])
  | .vec vs, buf => Value.writeList vs (buf ++ 24 :: i32le (vs.length : Int) ++ [1])
  | .linkedList vs, buf => Value.writeList vs (buf ++ 24 :: i32le (vs.length : Int) ++ [2])
  | .hashSet vs, buf => Value.writeList vs (buf ++ 24 :: i32le (vs.length : Int) ++ [3])
  | .linkedHashSet vs, buf => Value.writeList vs (buf ++ 24 :: i32le (vs.length : Int) ++ [4])
  | .hashMap ps, buf => Value.writePairs ps (buf ++ 25 :: i32le (ps.length : Int) ++ [1])
  | .linkedHashMap ps, buf => Value.writePairs ps (buf ++ 25 :: i32le (ps.length : Int) ++ [2])
  | .binaryObject flags typeId hashCode body, buf =>
    (buf ++ 103 :: 1 :: i16le flags ++ i32le typeId ++ i32le hashCode ++
      i32le ((body.length : Int) + 16) ++ body, none)

/-- The `for item in $col { item.write(bytes)?; }` loop of
`write_collection!`. -/
def Value.writeList : List Value → Buf → Buf × Option Error
  | [], buf => (buf, none)
  | v :: vs, buf =>
    match Value.write v buf with
    | (b, none) => Value.writeList vs b
    | (b, some e) => (b, some e)

/-- The `for (k, v) in $col { k.write(bytes)?; v.write(bytes)?; }` loop of
`write_map!`. -/
def Value.writePairs : List (Value × Value) → Buf → Buf × Option Error
  | [], buf => (buf, none)
  | (k, v) :: rest, buf =>
    match Value.write k buf with
    | (b, none) =>
      match Value.write v b with
      | (b2, none) => Value.writePairs rest b2
      | (b2, some e) => (b2, some e)
    | (b, some e) => (b, some e)

end

/-! ## Scalar decoders (`impl IgniteRead for ...`, lines 715–869) -/

/-- `check_flag` (lines 860–869): consume one byte and require it to equal
the expected type code. -/
def check_flag (expected : Int) : Reader Unit := fun bs =>
  obind (get_i8 bs) fun p =>
    if p.1 = expected then .ok ((), p.2)
    else .err ⟨.serde, str ("Unexpected flag: ") ++ fmtInt p.1 ++ str (" != ") ++ fmtInt expected⟩

/-- `impl IgniteRead for char` (lines 751–762): one 16-bit LITTLE-endian
code unit (`get_u16_le`, although the encoder wrote big-endian), converted
with `char::from_u32`, which rejects exactly the surrogate range. -/
def charRead : Reader Nat := fun bs =>
  obind (get_u16_le bs) fun p =>
    if 0xD800 ≤ p.1 ∧ p.1 ≤ 0xDFFF then
      .err ⟨.serde, str ("Failed to convert to char: ") ++ fmtInt (p.1 : Int)⟩
    else .ok p

/-- `impl IgniteRead for bool`: any non-zero byte is `true`. -/
def boolRead : Reader Bool := fun bs =>
  omap (fun p => (p.1 != 0, p.2)) (get_u8 bs)

/-- The message of the std `FromUtf8Error` converted by
`impl From<FromUtf8Error> for Error` (`src/error.rs`, kind `Encoding`);
the constant stands in for the std display text. -/
def utf8ErrorMessage : List Nat := str ("invalid utf-8 sequence")

/-- `impl IgniteRead for String` (lines 770–782): expect flag 9, read the
32-bit length, slice that many bytes (the `bytes` crate panics when fewer
remain), advance, and validate UTF-8. -/
def stringRead : Reader (List Nat) := fun bs =>
  obind (check_flag 9 bs) fun fp =>
  obind (get_i32_le fp.2) fun lp =>
    match takeExact (toUnsigned 64 lp.1) lp.2 with
    | none => .panic ("slice out of range")
    | some (payload, rest) =>
      match utf8Decode payload with
      | some s => .ok (s, rest)
      | none => .err ⟨.encoding, utf8ErrorMessage⟩

/-- The `w` big-endian bytes of a natural number. -/
def natBe : Nat → Nat → Buf
  | 0, _ => []
  | w + 1, x => natBe w (x / 256) ++ [x % 256]

/-- `impl IgniteRead for Uuid` (lines 784–807): expect flag 10, read two
little-endian 64-bit words, unpack each big-endian into the 16 raw bytes
(`arr[0..8]` from `msb`, `arr[8..16]` from `lsb`). -/
def uuidRead : Reader (List Nat) := fun bs =>
  obind (check_flag 10 bs) fun fp =>
  obind (get_i64_le fp.2) fun mp =>
  obind (get_i64_le mp.2) fun lp =>
    .ok (natBe 8 (toUnsigned 64 mp.1) ++ natBe 8 (toUnsigned 64 lp.1), lp.2)

/-- `impl IgniteRead for NaiveDateTime` (lines 809–819): expect flag 33,
read the 64-bit milliseconds and the 32-bit nanoseconds, then call
`NaiveDateTime::from_timestamp(millis, nanos)` — which takes SECONDS, so
the milliseconds land in the seconds field (the source marks this with
`// TODO: Expects seconds?`).  `from_timestamp` itself panics when the
nanosecond argument reaches 2·10⁹ (chrono also bounds the seconds; that
range check is not modelled). -/
def timestampRead : Reader (Int × Nat) := fun bs =>
  obind (check_flag 33 bs) fun fp =>
  obind (get_i64_le fp.2) fun mp =>
  obind (get_i32_le mp.2) fun np =>
    if toUnsigned 32 np.1 < 2000000000 then .ok ((mp.1, toUnsigned 32 np.1), np.2)
    else .panic ("invalid or out-of-range datetime")

/-- `impl<T> IgniteRead for Option<T>` (lines 821–835): peek the next byte
without consuming; an empty buffer is a codec error; the null sentinel 101
is consumed and yields `None`; anything else delegates to the typed
decoder with the buffer untouched. -/
def optionRead {α : Type} (rd : Reader α) : Reader (Option α) := fun bs =>
  match bs with
  | [] => .err ⟨.serde, str ("Out of bytes")⟩
  | b :: rest =>
    if b = 101 then .ok (none, rest)
    else omap (fun p => (some p.1, p.2)) (rd (b :: rest))

/-- The `for _ in 0..len { vec.push(T::read(bytes)?); }` loop of
`impl<T> IgniteRead for Vec<T>` and of the `Value` collection branch for
sub-kinds −1/0/1/5: elements come back in wire order. -/
def readElems {α : Type} (rd : Reader α) : Nat → Reader (List α)
  | 0 => fun bs => .ok ([], bs)
  | n + 1 => fun bs =>
    obind (rd bs) fun p =>
    obind (readElems rd n p.2) fun q => .ok (p.1 :: q.1, q.2)

/-- `impl<T> IgniteRead for Vec<T>` (lines 837–849): 32-bit length `as
usize`, then that many raw element reads. -/
def vecRead {α : Type} (rd : Reader α) : Reader (List α) := fun bs =>
  obind (get_i32_le bs) fun lp => readElems rd (toUnsigned 64 lp.1) lp.2

/-- `impl Hash for Value` (lines 205–216): unconditionally
`unimplemented!()`, i.e. a panic. -/
def valueHash : Value → Outcome Nat := fun _ => .panic ("not implemented")

/-- `impl PartialEq for Value` (lines 191–200): unconditionally
`unimplemented!()`. -/
def valueEq : Value → Value → Outcome Bool := fun _ _ => .panic ("not implemented")

/-- `HashSet::insert` / `LinkedHashSet::insert`: hashing the element is the
first thing insertion does, so it panics via `valueHash`; the `ok` branch
(unreachable) records insertion order. -/
def hashSetInsert (acc : List Value) (v : Value) : Outcome (List Value) :=
  obind (valueHash v) fun _ => .ok (acc ++ [v])

/-- `HashMap::insert` / `LinkedHashMap::insert`: hashes the key first. -/
def hashMapInsert (acc : List (Value × Value)) (k v : Value) :
    Outcome (List (Value × Value)) :=
  obind (valueHash k) fun _ => .ok (acc ++ [(k, v)])

/-- The `linked_list.push_back(Value::read(bytes)?)` loop of the sub-kind-2
branch (lines 634–641), accumulating at the back. -/
def readLinkedListElems (rd : Reader Value) : Nat → List Value → Reader (List Value)
  | 0, acc => fun bs => .ok (acc, bs)
  | n + 1, acc => fun bs =>
    obind (rd bs) fun p => readLinkedListElems rd n (acc ++ [p.1]) p.2

/-- The `hash_set.insert(Value::read(bytes)?)` loop of the sub-kind-3 and
sub-kind-4 branches (lines 643–660; the `LinkedHashSet` loop is
identical). -/
def readHashSetElems (rd : Reader Value) : Nat → List Value → Reader (List Value)
  | 0, acc => fun bs => .ok (acc, bs)
  | n + 1, acc => fun bs =>
    obind (rd bs) fun p =>
    obind (hashSetInsert acc p.1) fun acc2 => readHashSetElems rd n acc2 p.2

/-- The `map.insert(Value::read(bytes)?, Value::read(bytes)?)` loop of the
type-code-25 branches (lines 664–689; key read, then value read, then the
insertion, which hashes the key). -/
def readHashMapElems (rd : Reader Value) : Nat → List (Value × Value) →
    Reader (List (Value × Value))
  | 0, acc => fun bs => .ok (acc, bs)
  | n + 1, acc => fun bs =>
    obind (rd bs) fun kp =>
    obind (rd kp.2) fun vp =>
    obind (hashMapInsert acc kp.1 vp.1) fun acc2 => readHashMapElems rd n acc2 vp.2

/-! ## `impl IgniteRead for Value` (lines 588–713)

`bytes.first()` PEEKS at the type code; the cursor is advanced past it
only for type codes 1..=8.  The branches for codes 9, 10 and 33 re-consume
it through `check_flag`, but the branches for 12–21, 34, 24, 25 and 103
read their length (respectively protocol version) starting AT the
type-code byte — faithfully preserved below by passing the unadvanced
buffer to those branches.

The recursion is fuelled; `Value.readTop` supplies more fuel than any
buffer can nest, and running out models the stack exhaustion unbounded
recursion would cause. -/

def Value.read : Nat → Reader Value
  | 0 => fun _ => .panic ("recursion limit")
  | fuel + 1 => fun bytes =>
    match bytes with
    | [] => .err ⟨.serde, str ("Out of bytes.")⟩
    | tc :: rest =>
      match tc with
      | 1 => omap (fun p => (Value.i8 p.1, p.2)) (get_i8 rest)
      | 2 => omap (fun p => (Value.i16 p.1, p.2)) (get_i16_le rest)
      | 3 => omap (fun p => (Value.i32 p.1, p.2)) (get_i32_le rest)
      | 4 => omap (fun p => (Value.i64 p.1, p.2)) (get_i64_le rest)
      | 5 => omap (fun p => (Value.f32 p.1, p.2)) (get_f32_le rest)
      | 6 => omap (fun p => (Value.f64 p.1, p.2)) (get_f64_le rest)
      | 7 => omap (fun p => (Value.char p.1, p.2)) (charRead rest)
      | 8 => omap (fun p => (Value.bool p.1, p.2)) (boolRead rest)
      | 9 => omap (fun p => (Value.string p.1, p.2)) (stringRead (9 :: rest))
      | 10 => omap (fun p => (Value.uuid p.1, p.2)) (uuidRead (10 :: rest))
      | 33 => omap (fun p => (Value.timestamp p.1.1 p.1.2, p.2)) (timestampRead (33 :: rest))
      | 12 => omap (fun p => (Value.i8Vec p.1, p.2)) (vecRead get_i8 (12 :: rest))
      | 13 => omap (fun p => (Value.i16Vec p.1, p.2)) (vecRead get_i16_le (13 :: rest))
      | 14 => omap (fun p => (Value.i32Vec p.1, p.2)) (vecRead get_i32_le (14 :: rest))
      | 15 => omap (fun p => (Value.i64Vec p.1, p.2)) (vecRead get_i64_le (15 :: rest))
      | 16 => omap (fun p => (Value.f32Vec p.1, p.2)) (vecRead get_f32_le (16 :: rest))
      | 17 => omap (fun p => (Value.f64Vec p.1, p.2)) (vecRead get_f64_le (17 :: rest))
      | 18 => omap (fun p => (Value.charVec p.1, p.2)) (vecRead charRead (18 :: rest))
      | 19 => omap (fun p => (Value.boolVec p.1, p.2)) (vecRead boolRead (19 :: rest))
      | 20 => omap (fun p => (Value.stringVec p.1, p.2)) (vecRead stringRead (20 :: rest))
      | 21 => omap (fun p => (Value.uuidVec p.1, p.2)) (vecRead uuidRead (21 :: rest))
      | 34 => omap (fun p => (Value.timestampVec p.1, p.2)) (vecRead timestampRead (34 :: rest))
      | 24 =>
        obind (get_i32_le (24 :: rest)) fun lp =>
        obind (get_i8 lp.2) fun cp =>
          let len := toUnsigned 64 lp.1
          if cp.1 = -1 ∨ cp.1 = 0 ∨ cp.1 = 1 ∨ cp.1 = 5 then
            omap (fun p => (Value.vec p.1, p.2)) (readElems (Value.read fuel) len cp.2)
          else if cp.1 = 2 then
            omap (fun p => (Value.linkedList p.1, p.2))
              (readLinkedListElems (Value.read fuel) len [] cp.2)
          else if cp.1 = 3 then
            omap (fun p => (Value.hashSet p.1, p.2))
              (readHashSetElems (Value.read fuel) len [] cp.2)
          else if cp.1 = 4 then
            omap (fun p => (Value.linkedHashSet p.1, p.2))
              (readHashSetElems (Value.read fuel) len [] cp.2)
          else .err ⟨.serde, str ("Invalid collection type: ") ++ fmtInt cp.1⟩
      | 25 =>
        obind (get_i32_le (25 :: rest)) fun lp =>
        obind (get_i8 lp.2) fun mp =>
          let len := toUnsigned 64 lp.1
          if mp.1 = 1 then
            omap (fun p => (Value.hashMap p.1, p.2))
              (readHashMapElems (Value.read fuel) len [] mp.2)
          else if mp.1 = 2 then
            omap (fun p => (Value.linkedHashMap p.1, p.2))
              (readHashMapElems (Value.read fuel) len [] mp.2)
          else .err ⟨.serde, str ("Invalid map type: ") ++ fmtInt mp.1⟩
      | 103 =>
        obind (get_i8 (103 :: rest)) fun pv =>
          if pv.1 = 1 then
            obind (get_i16_le pv.2) fun fp =>
            obind (get_i32_le fp.2) fun tp =>
            obind (get_i32_le tp.2) fun hp =>
            obind (get_i32_le hp.2) fun lp =>
              match takeExact (toUnsigned 64 (lp.1 - 16)) lp.2 with
              | none => .panic ("slice out of range")
              | some (body, _) =>
                .ok (Value.binaryObject fp.1 tp.1 hp.1 body, lp.2)
          else .err ⟨.serde, str ("Unsupported protocol version: ") ++ fmtInt pv.1⟩
      | _ => .err ⟨.serde, str ("Invalid type code: ") ++ fmtInt (tc : Int)⟩

/-- The decoder entry point: fuel exceeding any possible nesting depth
(every recursive call is preceded by consuming a collection header). -/
def Value.readTop (bytes : Buf) : Outcome (Value × Buf) :=
  Value.read (bytes.length + 1) bytes

/-! ## Cache (`src/cache.rs`) and dispatcher (`src/network.rs`) -/

/-- `Cache::id` (`src/cache.rs`, lines 364–374): fold `hash = 31 * hash + c`
over the Unicode scalar values of the name in an `i64` accumulator
(wrapping, i.e. release-mode semantics), then truncate with `as i32`. -/
def Cache.id (name : List Nat) : Int :=
  wrapSigned 32 (name.foldl (fun (h : Int) (c : Nat) => wrapSigned 64 (31 * h + (c : Int))) 0)

/-- The request writer built by `Cache::execute` (lines 347–362): the cache
id (`put_i32_le`) and the unused flags byte 0 (`put_i8`) go in front of
whatever the operation-specific writer appends. -/
def Cache.executeWriter (name : List Nat) (w : Buf → Buf × Option Error) :
    Buf → Buf × Option Error :=
  fun request => w (request ++ i32le (Cache.id name) ++ [0])

/-- The request writer of `Cache::get` (opcode 1000): just the key. -/
def Cache.getRequestWriter (key : Value) : Buf → Buf × Option Error :=
  Value.write key

/-- The request writer of `Cache::put` (opcode 1001): key, then value. -/
def Cache.putRequestWriter (key value : Value) : Buf → Buf × Option Error :=
  fun request =>
    match Value.write key request with
    | (b, none) => Value.write value b
    | (b, some e) => (b, some e)

/-- A writer that appends a fixed body and succeeds; stands for the
operation-specific request writers, all of which only append. -/
def appendWriter (body : Buf) : Buf → Buf × Option Error :=
  fun buf => (buf ++ body, none)

/-- The request buffer assembled by `Tcp::execute` (`src/network.rs`,
lines 61–66): 16-bit opcode, the fixed 64-bit request id 0, then the
caller-supplied request writer. -/
def Tcp.executeRequest (opcode : Int) (w : Buf → Buf × Option Error) :
    Buf × Option Error :=
  w (i16le opcode ++ i64le 0)

/-- Reply processing of `Tcp::execute` (lines 70–81): read the echoed
64-bit request id and `assert_eq!` it against the 0 that was sent (a
mismatch PANICS); read the 32-bit status; on status 0 defer to the
caller-supplied response reader; otherwise decode the whole remainder as
the UTF-8 message of an `Ignite(status)` error — the `?` on
`String::from_utf8` turns invalid UTF-8 into an `Encoding` error instead —
and never call the reader. -/
def Tcp.executeReply {α : Type} (reader : Reader α) (reply : Buf) : Outcome α :=
  obind (get_i64_le reply) fun ip =>
    if ip.1 = 0 then
      obind (get_i32_le ip.2) fun sp =>
        if sp.1 = 0 then omap Prod.fst (reader sp.2)
        else
          match utf8Decode sp.2 with
          | some msg => .err ⟨.ignite sp.1, msg⟩
          | none => .err ⟨.encoding, utf8ErrorMessage⟩
    else .panic ("assertion failed")

/-- A trivial response reader, used to instantiate dispatcher theorems. -/
def unitReader : Reader Unit := fun bs => .ok ((), bs)

/-- The cache-id recurrence as the specification words it: `h₀ = 0`,
`hᵢ₊₁ = 31·hᵢ + cᵢ` over the Unicode code points, each step wrapped in a
64-bit two's-complement accumulator. -/
def cacheIdClaimGo : List Nat → Int → Int
  | [], h => h
  | c :: cs, h => cacheIdClaimGo cs (wrapSigned 64 (31 * h + (c : Int)))

/-- The cache id as the specification words it: the recurrence above,
truncated to the low 32 bits as a signed i32.  Stated separately from
`Cache.id` so the two can be compared. -/
def cacheIdClaim (name : List Nat) : Int := wrapSigned 32 (cacheIdClaimGo name 0)

/-! ## Supporting lemmas -/

theorem natLe_length (w x : Nat) : (natLe w x).length = w := by
  induction w generalizing x with
  | zero => rfl
  | succ w ih => simp [natLe, ih]

theorem takeExact_append (xs rest : Buf) :
    takeExact xs.length (xs ++ rest) = some (xs, rest) := by
  induction xs with
  | nil => rfl
  | cons b bs ih => simp [takeExact, ih]

theorem takeExact_short (n : Nat) (bs : Buf) (h : bs.length < n) :
    takeExact n bs = none := by
  induction n generalizing bs with
  | zero => omega
  | succ n ih =>
    cases bs with
    | nil => rfl
    | cons b bs =>
      simp only [takeExact]
      rw [ih bs (by simpa using h)]

theorem getBytes_append (xs rest : Buf) :
    getBytes xs.length (xs ++ rest) = .ok (xs, rest) := by
  simp [getBytes, takeExact_append]

theorem obind_ok {α β : Type} (a : α) (f : α → Outcome β) : obind (.ok a) f = f a := rfl

theorem obind_err {α β : Type} (e : Error) (f : α → Outcome β) :
    obind (.err e) f = .err e := rfl

theorem obind_panic {α β : Type} (m : String) (f : α → Outcome β) :
    obind (.panic m) f = .panic m := rfl

theorem omap_ok {α β : Type} (f : α → β) (a : α) : omap f (.ok a) = .ok (f a) := rfl

theorem omap_err {α β : Type} (f : α → β) (e : Error) : omap f (.err e) = .err e := rfl

theorem omap_panic {α β : Type} (f : α → β) (m : String) :
    omap f (.panic m) = .panic m := rfl

theorem leVal_natLe (w x : Nat) : leVal (natLe w x) = x % 256 ^ w := by
  induction w generalizing x with
  | zero => simp [natLe, leVal]; omega
  | succ w ih =>
    simp only [natLe, leVal, ih]
    rw [pow_succ, mul_comm (256 ^ w) 256, Nat.mod_mul]

theorem toUnsigned_natCast (w n : Nat) (h : n < 2 ^ w) : toUnsigned w (n : Int) = n := by
  simp only [toUnsigned]
  rw [Int.emod_eq_of_lt (by positivity) (by exact_mod_cast h)]
  exact Int.toNat_natCast n

theorem toSigned_small (w x : Nat) (h : x < 2 ^ (w - 1)) : toSigned w x = x := by
  simp [toSigned, h]

theorem toUnsigned_intCast (w : Nat) (x : Int) :
    ((toUnsigned w x : Nat) : Int) = x % ((2 ^ w : Nat) : Int) := by
  simp only [toUnsigned]
  rw [Int.toNat_of_nonneg (Int.emod_nonneg x (by positivity))]

theorem toSigned_emod (w u : Nat) :
    toSigned w u % ((2 ^ w : Nat) : Int) = (u : Int) % ((2 ^ w : Nat) : Int) := by
  simp only [toSigned]
  split
  · rfl
  · exact Int.emod_sub_cancel (u : Int) ((2 ^ w : Nat) : Int)

theorem wrapSigned_emod (w : Nat) (x : Int) :
    wrapSigned w x % ((2 ^ w : Nat) : Int) = x % ((2 ^ w : Nat) : Int) := by
  simp only [wrapSigned]
  rw [toSigned_emod, toUnsigned_intCast, Int.emod_emod_of_dvd _ dvd_rfl]

theorem wrapSigned_congr (w : Nat) (x y : Int)
    (h : x % ((2 ^ w : Nat) : Int) = y % ((2 ^ w : Nat) : Int)) :
    wrapSigned w x = wrapSigned w y := by
  simp only [wrapSigned, toUnsigned, h]

/-- A writer only appends: running it on an extended buffer prepends the
extension to its output unchanged. -/
def Shifts {α : Type} (wr : Writer α) : Prop :=
  ∀ (x : α) (buf extra : Buf),
    wr x (extra ++ buf) = (extra ++ (wr x buf).1, (wr x buf).2)

theorem i8Write_shifts : Shifts i8Write := by
  intro x buf extra; simp [i8Write]

theorem i16Write_shifts : Shifts i16Write := by
  intro x buf extra; simp [i16Write]

theorem i32Write_shifts : Shifts i32Write := by
  intro x buf extra; simp [i32Write]

theorem i64Write_shifts : Shifts i64Write := by
  intro x buf extra; simp [i64Write]

theorem f32Write_shifts : Shifts f32Write := by
  intro x buf extra; simp [f32Write]

theorem f64Write_shifts : Shifts f64Write := by
  intro x buf extra; simp [f64Write]

theorem charWrite_shifts : Shifts charWrite := by
  intro x buf extra
  simp only [charWrite]
  split <;> simp

theorem boolWrite_shifts : Shifts boolWrite := by
  intro x buf extra; simp [boolWrite]

theorem stringWrite_shifts : Shifts stringWrite := by
  intro x buf extra; simp [stringWrite]

theorem uuidWrite_shifts : Shifts uuidWrite := by
  intro x buf extra; simp [uuidWrite]

theorem timestampWrite_shifts : Shifts timestampWrite := by
  intro x buf extra; simp [timestampWrite]

theorem writeItems_shifts {α : Type} (wr : Writer α) (hw : Shifts wr) :
    ∀ (xs : List α) (buf extra : Buf),
      writeItems wr xs (extra ++ buf) =
        (extra ++ (writeItems wr xs buf).1, (writeItems wr xs buf).2) := by
  intro xs
  induction xs with
  | nil => intro buf extra; simp [writeItems]
  | cons x xs ih =>
    intro buf extra
    simp only [writeItems]
    rw [hw x buf extra]
    cases h : wr x buf with
    | mk b e =>
      cases e with
      | none => simpa using ih b extra
      | some err => simp

theorem vecWrite_shifts {α : Type} (wr : Writer α) (hw : Shifts wr) :
    Shifts (vecWrite wr) := by
  intro xs buf extra
  simp only [vecWrite, List.append_assoc]
  exact writeItems_shifts wr hw xs (buf ++ i32le (xs.length : Int)) extra

mutual

theorem Value.write_shifts : ∀ (v : Value) (buf extra : Buf),
    Value.write v (extra ++ buf) =
      (extra ++ (Value.write v buf).1, (Value.write v buf).2) := by
  intro v buf extra
  match v with
  | .i8 x =>
    rw [Value.write, Value.write]
    simp only [List.append_assoc]
    exact i8Write_shifts x _ extra
  | .i16 x =>
    rw [Value.write, Value.write]
    simp only [List.append_assoc]
    exact i16Write_shifts x _ extra
  | .i32 x =>
    rw [Value.write, Value.write]
    simp only [List.append_assoc]
    exact i32Write_shifts x _ extra
  | .i64 x =>
    rw [Value.write, Value.write]
    simp only [List.append_assoc]
    exact i64Write_shifts x _ extra
  | .f32 x =>
    rw [Value.write, Value.write]
    simp only [List.append_assoc]
    exact f32Write_shifts x _ extra
  | .f64 x =>
    rw [Value.write, Value.write]
    simp only [List.append_assoc]
    exact f64Write_shifts x _ extra
  | .char x =>
    rw [Value.write, Value.write]
    simp only [List.append_assoc]
    exact charWrite_shifts x _ extra
  | .bool x =>
    rw [Value.write, Value.write]
    simp only [List.append_assoc]
    exact boolWrite_shifts x _ extra
  | .string x =>
    rw [Value.write, Value.write]
    exact stringWrite_shifts x buf extra
  | .uuid x =>
    rw [Value.write, Value.write]
    exact uuidWrite_shifts x buf extra
  | .timestamp s n =>
    rw [Value.write, Value.write]
    exact timestampWrite_shifts (s, n) buf extra
  | .i8Vec x =>
    rw [Value.write, Value.write]
    simp only [List.append_assoc]
    exact vecWrite_shifts _ i8Write_shifts x _ extra
  | .i16Vec x =>
    rw [Value.write, Value.write]
    simp only [List.append_assoc]
    exact vecWrite_shifts _ i16Write_shifts x _ extra
  | .i32Vec x =>
    rw [Value.write, Value.write]
    simp only [List.append_assoc]
    exact vecWrite_shifts _ i32Write_shifts x _ extra
  | .i64Vec x =>
    rw [Value.write, Value.write]
    simp only [List.append_assoc]
    exact vecWrite_shifts _ i64Write_shifts x _ extra
  | .f32Vec x =>
    rw [Value.write, Value.write]
    simp only [List.append_assoc]
    exact vecWrite_shifts _ f32Write_shifts x _ extra
  | .f64Vec x =>
    rw [Value.write, Value.write]
    simp only [List.append_assoc]
    exact vecWrite_shifts _ f64Write_shifts x _ extra
  | .charVec x =>
    rw [Value.write, Value.write]
    simp only [List.append_assoc]
    exact vecWrite_shifts _ charWrite_shifts x _ extra
  | .boolVec x =>
    rw [Value.write, Value.write]
    simp only [List.append_assoc]
    exact vecWrite_shifts _ boolWrite_shifts x _ extra
  | .stringVec x =>
    rw [Value.write, Value.write]
    simp only [List.append_assoc]
    exact vecWrite_shifts _ stringWrite_shifts x _ extra
  | .uuidVec x =>
    rw [Value.write, Value.write]
    simp only [List.append_assoc]
    exact vecWrite_shifts _ uuidWrite_shifts x _ extra
  | .timestampVec x =>
    rw [Value.write, Value.write]
    simp only [List.append_assoc]
    exact vecWrite_shifts _ timestampWrite_shifts x _ extra
  | .vec vs =>
    rw [Value.write, Value.write]
    simp only [List.append_assoc]
    exact Value.writeList_shifts vs _ extra
  | .linkedList vs =>
    rw [Value.write, Value.write]
    simp only [List.append_assoc]
    exact Value.writeList_shifts vs _ extra
  | .hashSet vs =>
    rw [Value.write, Value.write]
    simp only [List.append_assoc]
    exact Value.writeList_shifts vs _ extra
  | .linkedHashSet vs =>
    rw [Value.write, Value.write]
    simp only [List.append_assoc]
    exact Value.writeList_shifts vs _ extra
  | .hashMap ps =>
    rw [Value.write, Value.write]
    simp only [List.append_assoc]
    exact Value.writePairs_shifts ps _ extra
  | .linkedHashMap ps =>
    rw [Value.write, Value.write]
    simp only [List.append_assoc]
    exact Value.writePairs_shifts ps _ extra
  | .binaryObject fl ti hc body =>
    rw [Value.write, Value.write]
    simp

theorem Value.writeList_shifts : ∀ (vs : List Value) (buf extra : Buf),
    Value.writeList vs (extra ++ buf) =
      (extra ++ (Value.writeList vs buf).1, (Value.writeList vs buf).2) := by
  intro vs buf extra
  match vs with
  | [] => simp [Value.writeList]
  | v :: vs =>
    rw [Value.writeList, Value.writeList]
    rw [Value.write_shifts v buf extra]
    cases h : Value.write v buf with
    | mk b e =>
      cases e with
      | none => exact Value.writeList_shifts vs b extra
      | some err => simp

theorem Value.writePairs_shifts : ∀ (ps : List (Value × Value)) (buf extra : Buf),
    Value.writePairs ps (extra ++ buf) =
      (extra ++ (Value.writePairs ps buf).1, (Value.writePairs ps buf).2) := by
  intro ps buf extra
  match ps with
  | [] => simp [Value.writePairs]
  | (k, v) :: rest =>
    rw [Value.writePairs, Value.writePairs]
    rw [Value.write_shifts k buf extra]
    cases h : Value.write k buf with
    | mk b e =>
      cases e with
      | none =>
        simp only []
        rw [Value.write_shifts v b extra]
        cases h2 : Value.write v b with
        | mk b2 e2 =>
          cases e2 with
          | none => exact Value.writePairs_shifts rest b2 extra
          | some err => simp
      | some err => simp

end

theorem cacheIdClaimGo_foldl : ∀ (cs : List Nat) (h : Int),
    cacheIdClaimGo cs h = cs.foldl (fun (h : Int) (c : Nat) => wrapSigned 64 (31 * h + (c : Int))) h := by
  intro cs
  induction cs with
  | nil => intro h; rfl
  | cons c cs ih => intro h; simp [cacheIdClaimGo, List.foldl, ih]

theorem foldl_wrap_emod : ∀ (cs : List Nat) (h1 h2 : Int),
    h1 % ((2 ^ 64 : Nat) : Int) = h2 % ((2 ^ 64 : Nat) : Int) →
    (cs.foldl (fun (h : Int) (c : Nat) => wrapSigned 64 (31 * h + (c : Int))) h1) % ((2 ^ 64 : Nat) : Int) =
      (cs.foldl (fun (h : Int) (c : Nat) => 31 * h + (c : Int)) h2) % ((2 ^ 64 : Nat) : Int) := by
  intro cs
  induction cs with
  | nil => intro h1 h2 h; exact h
  | cons c cs ih =>
    intro h1 h2 h
    simp only [List.foldl]
    refine ih _ _ ?_
    rw [wrapSigned_emod]
    have : (31 * h1 + (c : Int)) ≡ 31 * h2 + (c : Int) [ZMOD ((2 ^ 64 : Nat) : Int)] :=
      Int.ModEq.add_right (c : Int) (Int.ModEq.mul_left 31 h)
    exact this

/-! ## The claims -/

/-- C1: the round-trip law FAILS on the code.  The char encoder writes the
code unit big-endian (`put_u16`) but the decoder reads it little-endian
(`get_u16_le`), and the timestamp decoder feeds the 64-bit milliseconds to
a seconds-based constructor (flagged `// TODO: Expects seconds?` in the
source; the char put/get test is commented out with `TODO: fix`).  Shown
at `Value.Char 97` (= U+0061, a single-code-unit char, decoding back as
U+6100) and at `Value.Timestamp` of (1 s, 0 ns) (decoding back as
1000 s). -/
theorem char_timestamp_roundtrip_divergence :
    Value.write (.char 97) [] = ([7, 0, 97], none) ∧
    Value.readTop [7, 0, 97] = .ok (.char 24832, []) ∧
    Value.char 24832 ≠ Value.char 97 ∧
    Value.write (.timestamp 1 0) [] = ([33] ++ i64le 1000 ++ i32le 0, none) ∧
    Value.readTop ([33] ++ i64le 1000 ++ i32le 0) = .ok (.timestamp 1000 0, []) ∧
    Value.timestamp 1000 0 ≠ Value.timestamp 1 0 :=
  ⟨rfl, rfl, by simp, rfl, rfl, by simp⟩

/-- C2 counterexample: encoding a surrogate-pair char DOES append a byte —
the type-code byte 7 is committed before the char encoder fails, so the
buffer is `[7]`, not unchanged. -/
theorem char_surrogate_commits_type_code :
    Value.write (.char 128512) [] =
      ([7], some ⟨.serde, str ("Only UTF-16 characters are supported.")⟩) ∧
    ([7] : Buf) ≠ [] :=
  ⟨rfl, by simp⟩

/-- C2 (amended): encoding a `Value::Char` whose scalar needs a UTF-16
surrogate pair yields a Codec (`Serde`) error, with exactly the type-code
byte 7 appended to the output buffer before the failure. -/
theorem char_surrogate_error_after_type_code (c : Nat) (buf : Buf)
    (h : lenUtf16 c = 2) :
    Value.write (.char c) buf =
      (buf ++ [7], some ⟨.serde, str ("Only UTF-16 characters are supported.")⟩) := by
  have h1 : lenUtf16 c ≠ 1 := by omega
  rw [Value.write]
  simp [charWrite, h1]

theorem char_surrogate_error_after_type_code_witness :
    lenUtf16 128512 = 2 ∧
    Value.write (.char 128512) [] =
      ([7], some ⟨.serde, str ("Only UTF-16 characters are supported.")⟩) :=
  ⟨by decide, char_surrogate_error_after_type_code 128512 [] (by decide)⟩

/-- C3: `None` encodes as exactly the null-sentinel byte 101 (0x65);
decoding a buffer whose next byte is the sentinel consumes just that byte
and yields `None`; any other next byte delegates to the typed decoder on
the untouched buffer. -/
theorem option_null_sentinel {α : Type} (wr : Writer α) (rd : Reader α)
    (buf rest : Buf) (b : Nat) :
    optionWrite wr none buf = (buf ++ [101], none) ∧
    optionRead rd (101 :: rest) = .ok (none, rest) ∧
    (b ≠ 101 →
      optionRead rd (b :: rest) = omap (fun p => (some p.1, p.2)) (rd (b :: rest))) := by
  refine ⟨rfl, rfl, fun hb => ?_⟩
  simp [optionRead, hb]

theorem option_null_sentinel_witness :
    optionWrite i8Write none [] = ([101], none) ∧
    optionRead get_i8 [101, 9] = .ok (none, [9]) ∧
    optionRead get_i8 [7, 9] = omap (fun p => (some p.1, p.2)) (get_i8 [7, 9]) :=
  ⟨(option_null_sentinel i8Write get_i8 [] [9] 7).1,
   (option_null_sentinel i8Write get_i8 [] [9] 7).2.1,
   (option_null_sentinel i8Write get_i8 [] [9] 7).2.2 (by decide)⟩

/-- C4: the cache id is a pure function of the name computed by the 31·h+c
recurrence in a wrapping 64-bit accumulator truncated to a signed i32: it
coincides with the recurrence as the spec words it, the 64-bit wrap is
invisible after the 32-bit truncation (same as the exact integer fold),
and `id("") = 0`, `id("a") = 97`, `id("abc") = 31·(31·97 + 98) + 99`. -/
theorem cache_id_spec :
    (∀ name : List Nat, Cache.id name = cacheIdClaim name) ∧
    (∀ name : List Nat,
      Cache.id name =
        wrapSigned 32 (name.foldl (fun (h : Int) (c : Nat) => 31 * h + (c : Int)) 0)) ∧
    Cache.id (str "") = 0 ∧ Cache.id (str "a") = 97 ∧
    Cache.id (str "abc") = 31 * (31 * 97 + 98) + 99 := by
  refine ⟨fun name => ?_, fun name => ?_, rfl, rfl, rfl⟩
  · rw [Cache.id, cacheIdClaim, cacheIdClaimGo_foldl]
  · rw [Cache.id]
    apply wrapSigned_congr
    have h64 := foldl_wrap_emod name 0 0 rfl
    have hdvd : ((2 ^ 32 : Nat) : Int) ∣ ((2 ^ 64 : Nat) : Int) := by
      exact_mod_cast pow_dvd_pow 2 (by norm_num : (32 : Nat) ≤ 64)
    calc (name.foldl (fun (h : Int) (c : Nat) => wrapSigned 64 (31 * h + (c : Int))) 0) %
          ((2 ^ 32 : Nat) : Int)
        = (name.foldl (fun (h : Int) (c : Nat) => wrapSigned 64 (31 * h + (c : Int))) 0) %
            ((2 ^ 64 : Nat) : Int) % ((2 ^ 32 : Nat) : Int) :=
          (Int.emod_emod_of_dvd _ hdvd).symm
      _ = (name.foldl (fun (h : Int) (c : Nat) => 31 * h + (c : Int)) 0) %
            ((2 ^ 64 : Nat) : Int) % ((2 ^ 32 : Nat) : Int) := by rw [h64]
      _ = (name.foldl (fun (h : Int) (c : Nat) => 31 * h + (c : Int)) 0) %
            ((2 ^ 32 : Nat) : Int) := Int.emod_emod_of_dvd _ hdvd

/-- C5 counterexample: with a non-zero status but a remainder that is not
valid UTF-8 (the lone byte 255), `Tcp::execute` surfaces an `Encoding`
error, not the claimed `ServerStatus` (`Ignite`) error. -/
theorem execute_nonzero_status_invalid_utf8 :
    Tcp.executeReply unitReader [0, 0, 0, 0, 0, 0, 0, 0, 1, 0, 0, 0, 255] =
      .err ⟨.encoding, utf8ErrorMessage⟩ ∧
    ErrorKind.encoding ≠ ErrorKind.ignite 1 :=
  ⟨rfl, by decide⟩

/-- C5 (amended): after the echoed request id 0, status 0 hands the
remainder to the caller-supplied reader and returns its result unchanged;
a non-zero status never invokes the reader and yields an
`Ignite(status)` error whose message is the UTF-8 decoding of the entire
remainder when that decoding succeeds, and an `Encoding` error when it
does not. -/
theorem execute_status_demux {α : Type} (r1 r2 : Reader α)
    (s0 s1 s2 s3 : Nat) (rest : Buf) (msg : List Nat) :
    (toSigned 32 (leVal [s0, s1, s2, s3]) = 0 →
      Tcp.executeReply r1 ([0, 0, 0, 0, 0, 0, 0, 0, s0, s1, s2, s3] ++ rest) =
        omap Prod.fst (r1 rest)) ∧
    (toSigned 32 (leVal [s0, s1, s2, s3]) ≠ 0 → utf8Decode rest = some msg →
      Tcp.executeReply r1 ([0, 0, 0, 0, 0, 0, 0, 0, s0, s1, s2, s3] ++ rest) =
        .err ⟨.ignite (toSigned 32 (leVal [s0, s1, s2, s3])), msg⟩) ∧
    (toSigned 32 (leVal [s0, s1, s2, s3]) ≠ 0 → utf8Decode rest = none →
      Tcp.executeReply r1 ([0, 0, 0, 0, 0, 0, 0, 0, s0, s1, s2, s3] ++ rest) =
        .err ⟨.encoding, utf8ErrorMessage⟩) ∧
    (toSigned 32 (leVal [s0, s1, s2, s3]) ≠ 0 →
      Tcp.executeReply r1 ([0, 0, 0, 0, 0, 0, 0, 0, s0, s1, s2, s3] ++ rest) =
        Tcp.executeReply r2 ([0, 0, 0, 0, 0, 0, 0, 0, s0, s1, s2, s3] ++ rest)) := by
  have key : ∀ {γ : Type} (r : Reader γ),
      Tcp.executeReply r ([0, 0, 0, 0, 0, 0, 0, 0, s0, s1, s2, s3] ++ rest) =
        if toSigned 32 (leVal [s0, s1, s2, s3]) = 0 then omap Prod.fst (r rest)
        else
          match utf8Decode rest with
          | some m => .err ⟨.ignite (toSigned 32 (leVal [s0, s1, s2, s3])), m⟩
          | none => .err ⟨.encoding, utf8ErrorMessage⟩ := by
    intro γ r
    have hg : get_i64_le (0 :: 0 :: 0 :: 0 :: 0 :: 0 :: 0 :: 0 ::
        s0 :: s1 :: s2 :: s3 :: rest) = .ok (0, s0 :: s1 :: s2 :: s3 :: rest) := rfl
    have hs : get_i32_le (s0 :: s1 :: s2 :: s3 :: rest) =
        .ok (toSigned 32 (leVal [s0, s1, s2, s3]), rest) := rfl
    simp only [List.cons_append, List.nil_append]
    rw [Tcp.executeReply, hg, obind_ok]
    simp only []
    rw [if_pos trivial, hs, obind_ok]
  refine ⟨fun h0 => ?_, fun hs hu => ?_, fun hs hu => ?_, fun hs => ?_⟩
  · rw [key r1, if_pos h0]
  · rw [key r1, if_neg hs, hu]
  · rw [key r1, if_neg hs, hu]
  · rw [key r1, key r2, if_neg hs, if_neg hs]

theorem execute_status_demux_witness :
    Tcp.executeReply get_i8 [0, 0, 0, 0, 0, 0, 0, 0, 0, 0, 0, 0, 42] = .ok 42 ∧
    Tcp.executeReply unitReader [0, 0, 0, 0, 0, 0, 0, 0, 1, 0, 0, 0, 65] =
      .err ⟨.ignite 1, [65]⟩ :=
  ⟨(execute_status_demux get_i8 get_i8 0 0 0 0 [42] []).1 (by decide),
   (execute_status_demux unitReader unitReader 1 0 0 0 [65] [65]).2.1
     (by decide) (by rfl)⟩

/-- C6 counterexample: a reply echoing request id 1 (instead of the 0 that
was sent) makes `Tcp::execute` PANIC via `assert_eq!`; it does not return
an error value of any kind. -/
theorem execute_request_id_mismatch_concrete :
    Tcp.executeReply unitReader [1, 0, 0, 0, 0, 0, 0, 0] = .panic ("assertion failed") ∧
    (Tcp.executeReply unitReader [1, 0, 0, 0, 0, 0, 0, 0]).isErr = false :=
  ⟨rfl, rfl⟩

/-- C6 (amended): whenever the echoed 64-bit request id differs from the 0
that was sent, `Tcp::execute` aborts with an assertion failure (a panic),
for every response reader and every remainder of the reply. -/
theorem execute_request_id_mismatch_panics {α : Type} (r : Reader α)
    (b0 b1 b2 b3 b4 b5 b6 b7 : Nat) (rest : Buf)
    (h : toSigned 64 (leVal [b0, b1, b2, b3, b4, b5, b6, b7]) ≠ 0) :
    Tcp.executeReply r ([b0, b1, b2, b3, b4, b5, b6, b7] ++ rest) =
      .panic ("assertion failed") := by
  have hg : get_i64_le (b0 :: b1 :: b2 :: b3 :: b4 :: b5 :: b6 :: b7 :: rest) =
      .ok (toSigned 64 (leVal [b0, b1, b2, b3, b4, b5, b6, b7]), rest) := rfl
  simp only [List.cons_append, List.nil_append]
  rw [Tcp.executeReply, hg, obind_ok]
  generalize hS : toSigned 64 (leVal [b0, b1, b2, b3, b4, b5, b6, b7]) = S at h ⊢
  simp only []
  rw [if_neg h]

theorem execute_request_id_mismatch_panics_witness :
    Tcp.executeReply unitReader [1, 0, 0, 0, 0, 0, 0, 0] = .panic ("assertion failed") :=
  execute_request_id_mismatch_panics unitReader 1 0 0 0 0 0 0 0 [] (by decide)

/-- C7: the request buffer that `Cache::execute` hands to the dispatcher
is the 16-bit opcode and 64-bit request id 0 (written by `Tcp::execute`),
then the 32-bit little-endian cache id and the flags byte 0, and only then
the operation-specific body — shown for an arbitrary appending writer and
for the actual `Cache::get` / `Cache::put` request writers (for those, the
prefix property holds even when the key or value encoder fails midway). -/
theorem cache_execute_body_prefix (opcode : Int) (name : List Nat) (body : Buf)
    (key value : Value) :
    Tcp.executeRequest opcode (Cache.executeWriter name (appendWriter body)) =
      (i16le opcode ++ i64le 0 ++ i32le (Cache.id name) ++ 0 :: body, none) ∧
    (Tcp.executeRequest opcode (Cache.executeWriter name (Cache.getRequestWriter key))).1 =
      i16le opcode ++ i64le 0 ++ i32le (Cache.id name) ++ 0 :: (Value.write key []).1 ∧
    (Tcp.executeRequest opcode (Cache.executeWriter name (Cache.putRequestWriter key value))).1 =
      i16le opcode ++ i64le 0 ++ i32le (Cache.id name) ++
        0 :: (Cache.putRequestWriter key value []).1 := by
  have hput : ∀ (buf extra : Buf),
      Cache.putRequestWriter key value (extra ++ buf) =
        (extra ++ (Cache.putRequestWriter key value buf).1,
          (Cache.putRequestWriter key value buf).2) := by
    intro buf extra
    simp only [Cache.putRequestWriter]
    rw [Value.write_shifts key buf extra]
    cases h : Value.write key buf with
    | mk b e =>
      cases e with
      | none =>
        simp only []
        exact Value.write_shifts value b extra
      | some err => simp
  refine ⟨?_, ?_, ?_⟩
  · simp only [Tcp.executeRequest, Cache.executeWriter, appendWriter,
      List.append_assoc, List.cons_append, List.nil_append]
  · have h := Value.write_shifts key []
      (i16le opcode ++ i64le 0 ++ i32le (Cache.id name) ++ [0])
    rw [List.append_nil] at h
    simp only [List.append_assoc] at h
    simp only [Tcp.executeRequest, Cache.executeWriter, Cache.getRequestWriter,
      List.append_assoc]
    rw [h]
    simp only [List.cons_append, List.nil_append]
  · have h := hput []
      (i16le opcode ++ i64le 0 ++ i32le (Cache.id name) ++ [0])
    rw [List.append_nil] at h
    simp only [List.append_assoc] at h
    simp only [Tcp.executeRequest, Cache.executeWriter, List.append_assoc]
    rw [h]
    simp only [List.cons_append, List.nil_append]

/-- C8: FAILS on the code (code bug).  The decoder never advances past the
type-code byte for composite values: for type code 24 the 32-bit length
read starts AT the 24 byte, and the byte dispatched as the sub-kind is the
high byte of the wire length field.  The canonical encoding of a
one-element ordered collection — which per the claim decodes back as a
`Value::Vec` holding that element — mis-parses: the decoder computes
length 24 + 256 = 280, dispatches on byte 0, and runs off the end of the
buffer, panicking instead of producing the collection. -/
theorem collection_encoding_misparsed :
    Value.write (.vec [.i8 5]) [] = ([24, 1, 0, 0, 0, 1, 1, 5], none) ∧
    Value.readTop [24, 1, 0, 0, 0, 1, 1, 5] = .panic ("advance out of bounds") :=
  ⟨rfl, rfl⟩

/-- C9 counterexample: String decoding with declared length 5 and no
payload bytes left PANICS (out-of-range slice); it does not return a
Codec error. -/
theorem string_read_truncated_panics :
    stringRead [9, 5, 0, 0, 0] = .panic ("slice out of range") ∧
    (stringRead [9, 5, 0, 0, 0]).isErr = false :=
  ⟨rfl, rfl⟩

/-- C9 (amended): truncation is not generally converted into a Codec
error.  The two decoders that PEEK do handle an empty buffer gracefully —
`Value::read` and `Option::read` return a Codec (`Serde`) error there —
but String decoding PANICS (out-of-range slice) whenever the declared
length exceeds the remaining bytes, and the raw fixed-width byte getters
panic whenever fewer bytes remain than the requested width.  Some
truncated non-empty buffers return Codec errors for unrelated reasons:
the lone byte 103 is a truncated BinaryObject, but the misaligned parse
re-reads the 103 as the protocol version and errors on it. -/
theorem truncation_error_vs_panic (fuel : Nat) {α : Type} (rd : Reader α)
    (len : Nat) (rest : Buf) (w : Nat) (bs : Buf) :
    Value.read (fuel + 1) [] = .err ⟨.serde, str ("Out of bytes.")⟩ ∧
    optionRead rd [] = .err ⟨.serde, str ("Out of bytes")⟩ ∧
    (len < 2 ^ 31 → rest.length < len →
      stringRead (9 :: i32le (len : Int) ++ rest) = .panic ("slice out of range")) ∧
    (bs.length < w → getBytes w bs = .panic ("advance out of bounds")) ∧
    Value.read (fuel + 1) [103] =
      .err ⟨.serde, str ("Unsupported protocol version: ") ++ fmtInt 103⟩ := by
  refine ⟨rfl, rfl, fun h31 hlen => ?_, fun hw => ?_, rfl⟩
  · have hu : toUnsigned 32 (len : Int) = len :=
      toUnsigned_natCast 32 len (lt_trans h31 (by norm_num))
    have hc : check_flag 9 (9 :: (natLe 4 len ++ rest)) =
        .ok ((), natLe 4 len ++ rest) := rfl
    have hg : get_i32_le (natLe 4 len ++ rest) =
        .ok (toSigned 32 (leVal (natLe 4 len)), rest) := rfl
    have h4 : len < 256 ^ 4 := lt_trans h31 (by norm_num)
    simp only [i32le, hu, List.cons_append]
    rw [stringRead, hc, obind_ok]
    simp only []
    rw [hg, obind_ok]
    simp only []
    rw [leVal_natLe, Nat.mod_eq_of_lt h4, toSigned_small 32 len h31,
      toUnsigned_natCast 64 len (lt_trans h31 (by norm_num)),
      takeExact_short len rest hlen]
  · simp only [getBytes]
    rw [takeExact_short w bs hw]

theorem truncation_error_vs_panic_witness :
    Value.read 1 [] = .err ⟨.serde, str ("Out of bytes.")⟩ ∧
    optionRead get_i8 [] = .err ⟨.serde, str ("Out of bytes")⟩ ∧
    stringRead [9, 5, 0, 0, 0] = .panic ("slice out of range") ∧
    getBytes 4 [1, 2, 3] = .panic ("advance out of bounds") ∧
    Value.read 1 [103] =
      .err ⟨.serde, str ("Unsupported protocol version: ") ++ fmtInt 103⟩ :=
  ⟨(truncation_error_vs_panic 0 get_i8 5 [] 4 [1, 2, 3]).1,
   (truncation_error_vs_panic 0 get_i8 5 [] 4 [1, 2, 3]).2.1,
   (truncation_error_vs_panic 0 get_i8 5 [] 4 [1, 2, 3]).2.2.1 (by norm_num) (by decide),
   (truncation_error_vs_panic 0 get_i8 5 [] 4 [1, 2, 3]).2.2.2.1 (by decide),
   (truncation_error_vs_panic 0 get_i8 5 [] 4 [1, 2, 3]).2.2.2.2⟩

/-- C10 counterexample: the canonical wire encoding of a one-entry hash
map (type code 25, length 1, sub-kind 1) does NOT panic: the misaligned
parse dispatches on the high length byte 0 and yields an
`Invalid map type: 0` Codec error. -/
theorem wire_map_decode_errors_not_panics :
    Value.write (.hashMap [(.i8 5, .i8 6)]) [] =
      ([25, 1, 0, 0, 0, 1, 1, 5, 1, 6], none) ∧
    Value.readTop [25, 1, 0, 0, 0, 1, 1, 5, 1, 6] =
      .err ⟨.serde, str ("Invalid map type: ") ++ fmtInt 0⟩ :=
  ⟨rfl, rfl⟩

theorem toUnsigned64_toSigned32_ne_zero (x : Nat) (hlo : 0 < x)
    (hhi : x < 2 ^ 32) : toUnsigned 64 (toSigned 32 x) ≠ 0 := by
  simp only [toSigned, toUnsigned]
  norm_num
  split <;> omega

/-- C10 (amended): the unimplemented `Hash` of `Value` does make decoding
panic, but reached through the misaligned parse: whenever the byte the
decoder dispatches on (the FIFTH buffer byte — on a well-formed wire
collection that is the high byte of the length field, not the wire
sub-kind) is 3 or 4 after a leading 24, or 1 or 2 after a leading 25, and
the first element (for maps: the first key and value) decodes
successfully, the first set/map insertion hashes a `Value` and panics
with `not implemented`.  This is a sufficient condition; it covers
well-formed wire sets whose element count carries 3 or 4 in its high
byte, while the canonical small collections of the original claim error
out instead (see the counterexample).  The misread length is never zero
(its low byte is the type code 24/25), so the loop always runs. -/
theorem set_map_insert_panics (fuel : Nat) (b0 b1 b2 : Nat) (rest r1 r2 : Buf)
    (k v : Value) (h0 : b0 < 256) (h1 : b1 < 256) (h2 : b2 < 256) :
    (Value.read fuel rest = .ok (k, r1) →
      Value.read (fuel + 1) (24 :: b0 :: b1 :: b2 :: 3 :: rest) =
        .panic ("not implemented")) ∧
    (Value.read fuel rest = .ok (k, r1) →
      Value.read (fuel + 1) (24 :: b0 :: b1 :: b2 :: 4 :: rest) =
        .panic ("not implemented")) ∧
    (Value.read fuel rest = .ok (k, r1) → Value.read fuel r1 = .ok (v, r2) →
      Value.read (fuel + 1) (25 :: b0 :: b1 :: b2 :: 1 :: rest) =
        .panic ("not implemented")) ∧
    (Value.read fuel rest = .ok (k, r1) → Value.read fuel r1 = .ok (v, r2) →
      Value.read (fuel + 1) (25 :: b0 :: b1 :: b2 :: 2 :: rest) =
        .panic ("not implemented")) := by
  have hpos24 : 0 < leVal [24, b0, b1, b2] := by simp only [leVal]; omega
  have hlt24 : leVal [24, b0, b1, b2] < 2 ^ 32 := by simp only [leVal]; omega
  have hpos25 : 0 < leVal [25, b0, b1, b2] := by simp only [leVal]; omega
  have hlt25 : leVal [25, b0, b1, b2] < 2 ^ 32 := by simp only [leVal]; omega
  have hne24 := toUnsigned64_toSigned32_ne_zero _ hpos24 hlt24
  have hne25 := toUnsigned64_toSigned32_ne_zero _ hpos25 hlt25
  obtain ⟨m24, hm24⟩ := Nat.exists_eq_succ_of_ne_zero hne24
  obtain ⟨m25, hm25⟩ := Nat.exists_eq_succ_of_ne_zero hne25
  refine ⟨fun hk => ?_, fun hk => ?_, fun hk hv => ?_, fun hk hv => ?_⟩
  · have hstep : Value.read (fuel + 1) (24 :: b0 :: b1 :: b2 :: 3 :: rest) =
        omap (fun p => (Value.hashSet p.1, p.2))
          (readHashSetElems (Value.read fuel)
            (toUnsigned 64 (toSigned 32 (leVal [24, b0, b1, b2]))) [] rest) := rfl
    rw [hstep, hm24, readHashSetElems]
    simp only []
    rw [hk, obind_ok]
    rfl
  · have hstep : Value.read (fuel + 1) (24 :: b0 :: b1 :: b2 :: 4 :: rest) =
        omap (fun p => (Value.linkedHashSet p.1, p.2))
          (readHashSetElems (Value.read fuel)
            (toUnsigned 64 (toSigned 32 (leVal [24, b0, b1, b2]))) [] rest) := rfl
    rw [hstep, hm24, readHashSetElems]
    simp only []
    rw [hk, obind_ok]
    rfl
  · have hstep : Value.read (fuel + 1) (25 :: b0 :: b1 :: b2 :: 1 :: rest) =
        omap (fun p => (Value.hashMap p.1, p.2))
          (readHashMapElems (Value.read fuel)
            (toUnsigned 64 (toSigned 32 (leVal [25, b0, b1, b2]))) [] rest) := rfl
    rw [hstep, hm25, readHashMapElems]
    simp only []
    rw [hk, obind_ok]
    simp only []
    rw [hv, obind_ok]
    rfl
  · have hstep : Value.read (fuel + 1) (25 :: b0 :: b1 :: b2 :: 2 :: rest) =
        omap (fun p => (Value.linkedHashMap p.1, p.2))
          (readHashMapElems (Value.read fuel)
            (toUnsigned 64 (toSigned 32 (leVal [25, b0, b1, b2]))) [] rest) := rfl
    rw [hstep, hm25, readHashMapElems]
    simp only []
    rw [hk, obind_ok]
    simp only []
    rw [hv, obind_ok]
    rfl

theorem set_map_insert_panics_witness :
    Value.read 2 [24, 1, 0, 0, 3, 1, 5] = .panic ("not implemented") ∧
    Value.read 2 [24, 1, 0, 0, 4, 1, 5] = .panic ("not implemented") ∧
    Value.read 2 [25, 1, 0, 0, 1, 1, 5, 1, 6] = .panic ("not implemented") ∧
    Value.read 2 [25, 1, 0, 0, 2, 1, 5, 1, 6] = .panic ("not implemented") := by
  have t1 := set_map_insert_panics 1 1 0 0 [1, 5] [] [] (.i8 5) (.i8 6)
    (by norm_num) (by norm_num) (by norm_num)
  have t2 := set_map_insert_panics 1 1 0 0 [1, 5, 1, 6] [1, 6] [] (.i8 5) (.i8 6)
    (by norm_num) (by norm_num) (by norm_num)
  exact ⟨t1.1 rfl, t1.2.1 rfl, t2.2.2.1 rfl rfl, t2.2.2.2 rfl rfl⟩

end IgniteRust
